import Mathlib

/-!
Verification development for the barber calendar webhook service.

The definitions below are a shallow embedding of `src/routes/webhook.js`
(the second, later copy of the file where two revisions are concatenated)
together with the record-store helpers of `src/utils/supabase.js`.
JavaScript `Date` instants are embedded as `Int` epoch milliseconds;
strings are analysed at the character-list level so that every definition
evaluates by `decide`/`rfl`.
-/

namespace Barber

/-! ## Calendar arithmetic (epoch-day computations used to embed JS `Date`) -/

/-- Leap-year test on the proleptic Gregorian calendar. -/
def isLeap (y : Int) : Bool := (y.emod 4 == 0 && y.emod 100 != 0) || y.emod 400 == 0

/-- Number of days since 1970-01-01 of the civil date `y-m-d`
(months `1..12`; the formula is linear in `d`, matching the ECMAScript
`MakeDay` behaviour of accepting any integer day offset). -/
def daysFromCivil (y m d : Int) : Int :=
  let y' := if m ≤ 2 then y - 1 else y
  let era := y'.fdiv 400
  let yoe := y' - era * 400
  let mp := (m + 9).emod 12
  let doy := (153 * mp + 2).fdiv 5 + d - 1
  let doe := yoe * 365 + yoe.fdiv 4 - yoe.fdiv 100 + doy
  era * 146097 + doe - 719468

/-- Epoch milliseconds of the UTC wall-clock `y-m-d h:mi:s` (plus `fr` ms). -/
def msOfUTC (y m d h mi s : Int) (fr : Int := 0) : Int :=
  daysFromCivil y m d * 86400000 + h * 3600000 + mi * 60000 + s * 1000 + fr

/-- Embedding of `Date.UTC(y, monthIndex, d, h, mi, s)`: the ECMAScript
`MakeDay`/`MakeTime` normalisation carries an out-of-range month index into
neighbouring years and out-of-range day/hour/minute/second values linearly. -/
def jsDateUTC (y monthIndex d h mi s : Int) : Int :=
  msOfUTC (y + monthIndex.fdiv 12) (monthIndex.emod 12 + 1) d h mi s

/-- Days in a month of the Gregorian calendar. -/
def daysInMonth (y m : Int) : Int :=
  if m = 2 then (if isLeap y then 29 else 28)
  else if m = 4 ∨ m = 6 ∨ m = 9 ∨ m = 11 then 30
  else 31

/-! ## Character-level string utilities (JS semantics, ASCII domain) -/

/-- `String.prototype.toLowerCase` restricted to ASCII letters. -/
def lowerChar (c : Char) : Char :=
  if 'A' ≤ c ∧ c ≤ 'Z' then Char.ofNat (c.toNat + 32) else c

def lowerStr (s : List Char) : List Char := s.map lowerChar

/-- `String.prototype.trim`: strip leading and trailing whitespace. -/
def trimStr (s : List Char) : List Char :=
  (((s.dropWhile Char.isWhitespace).reverse).dropWhile Char.isWhitespace).reverse

/-- Boolean "is `pat` a contiguous substring of `s`" — JS `String.prototype.includes`. -/
def includesAux (s pat : List Char) : Bool :=
  match s with
  | [] => pat.isEmpty
  | _ :: tl => pat.isPrefixOf s || includesAux tl pat

def includes (s pat : List Char) : Bool := includesAux s pat

/-! ## The Time Parser: `parsePacificDateTime` (webhook.js) -/

/-- Embedding of the regex replace `/\.\d+(?=[Z+-])/` applied once
(left-most match): drop a dot followed by digits when the digit run is
followed by `Z`, `+` or `-`.  The `includes('.')` guard in the source is
subsumed (a string with no dot is returned unchanged). -/
def stripMillis : List Char → List Char
  | [] => []
  | '.' :: rest =>
    let ds := rest.takeWhile Char.isDigit
    let rest' := rest.dropWhile Char.isDigit
    if !ds.isEmpty && (match rest' with
        | c :: _ => c = 'Z' ∨ c = '+' ∨ c = '-'
        | [] => False) then
      rest'
    else
      '.' :: stripMillis rest
  | c :: rest => c :: stripMillis rest

/-- Read exactly `n` digits, returning their value and the rest. -/
def readDigits : Nat → List Char → Option (Nat × List Char)
  | 0, s => some (0, s)
  | n + 1, c :: s =>
    if c.isDigit then
      (readDigits n s).map (fun p => (p.1 + (c.toNat - '0'.toNat) * 10 ^ n, p.2))
    else none
  | _ + 1, [] => none

/-- Millisecond value of a fractional-second digit run (first three digits,
right-padded with zeros), as ECMAScript does for `.sss`. -/
def fracMs (ds : List Char) : Int :=
  match ds with
  | [] => 0
  | [a] => (a.toNat - '0'.toNat) * 100
  | [a, b] => (a.toNat - '0'.toNat) * 100 + (b.toNat - '0'.toNat) * 10
  | a :: b :: c :: _ =>
    ((a.toNat - '0'.toNat) * 100 + (b.toNat - '0'.toNat) * 10 + (c.toNat - '0'.toNat) : Nat)

/-- Parsed shape of an ECMAScript Date Time String. -/
structure JsDateFields where
  year : Nat
  month : Nat
  day : Nat
  hasTime : Bool
  hour : Nat
  minute : Nat
  second : Nat
  frac : Int
  /-- `none` = no offset (naive local time); `some o` = explicit offset of `o` minutes
  (with `Z` = `some 0`). -/
  offsetMin : Option Int
  deriving DecidableEq, Repr

/-- Parse the optional time-zone suffix `Z` or `±HH:MM`. -/
def parseOffset : List Char → Option (Option Int × List Char)
  | [] => some (none, [])
  | 'Z' :: s => some (some 0, s)
  | '+' :: s =>
    match readDigits 2 s with
    | some (oh, ':' :: s') =>
      (readDigits 2 s').map (fun p => (some ((oh : Int) * 60 + p.1), p.2))
    | _ => none
  | '-' :: s =>
    match readDigits 2 s with
    | some (oh, ':' :: s') =>
      (readDigits 2 s').map (fun p => (some (-((oh : Int) * 60 + p.1)), p.2))
    | _ => none
  | _ => none

/-- Parse `[:SS[.fff]]` followed by an optional offset. -/
def parseSecondsAndOffset (s : List Char) : Option (Nat × Int × Option Int × List Char) :=
  match s with
  | ':' :: s' =>
    match readDigits 2 s' with
    | some (ss, rest) =>
      match rest with
      | '.' :: rest' =>
        let ds := rest'.takeWhile Char.isDigit
        if ds.isEmpty then none
        else (parseOffset (rest'.dropWhile Char.isDigit)).map
          (fun p => (ss, fracMs ds, p.1, p.2))
      | _ => (parseOffset rest).map (fun p => (ss, 0, p.1, p.2))
    | none => none
  | _ => (parseOffset s).map (fun p => (0, 0, p.1, p.2))

/-- Parse the time-of-day part `THH:MM[:SS[.fff]][offset]`. -/
def parseTimePart (s : List Char) : Option (Nat × Nat × Nat × Int × Option Int × List Char) :=
  match s with
  | 'T' :: s' =>
    match readDigits 2 s' with
    | some (hh, ':' :: s'') =>
      match readDigits 2 s'' with
      | some (mm, rest) =>
        (parseSecondsAndOffset rest).map (fun p => (hh, mm, p.1, p.2.1, p.2.2.1, p.2.2.2))
      | none => none
    | _ => none
  | _ => none

/-- Parse the date part `YYYY[-MM[-DD]]`. -/
def parseDatePart (s : List Char) : Option (Nat × Nat × Nat × List Char) :=
  match readDigits 4 s with
  | some (yyyy, rest) =>
    match rest with
    | '-' :: s' =>
      match readDigits 2 s' with
      | some (mm, rest') =>
        match rest' with
        | '-' :: s'' =>
          (readDigits 2 s'').map (fun p => (yyyy, mm, p.1, p.2))
        | _ => some (yyyy, mm, 1, rest')
      | none => none
    | _ => some (yyyy, 1, 1, rest)
  | none => none

/-- Structural parse of the ECMAScript Date Time String Format
(`YYYY[-MM[-DD]][THH:MM[:SS[.fff]][Z|±HH:MM]]`). -/
def parseJsDateFields (s : List Char) : Option JsDateFields :=
  match parseDatePart s with
  | none => none
  | some (y, mo, d, rest) =>
    match rest with
    | [] => some ⟨y, mo, d, false, 0, 0, 0, 0, none⟩
    | _ =>
      match parseTimePart rest with
      | some (hh, mm, ss, fr, off, []) => some ⟨y, mo, d, true, hh, mm, ss, fr, off⟩
      | _ => none

/-- Range validity per ECMAScript: months `1..12`, real calendar day,
hour `≤ 23`, minute/second `≤ 59`. -/
def fieldsValid (f : JsDateFields) : Bool :=
  decide (1 ≤ f.month) && decide (f.month ≤ 12) &&
  decide (1 ≤ f.day) && decide ((f.day : Int) ≤ daysInMonth f.year f.month) &&
  decide (f.hour ≤ 23) && decide (f.minute ≤ 59) && decide (f.second ≤ 59)

/-- Embedding of `new Date(string)` on the ECMAScript Date Time String
Format (the portion of `Date` parsing fixed by the language specification;
engine-specific legacy formats are outside the model).  `envOffsetMin` is
the host timezone's offset from UTC in minutes (east positive): a
date-time form without an explicit offset is interpreted as *local* time,
while a date-only form is interpreted as UTC. -/
def jsDateParse (envOffsetMin : Int) (s : List Char) : Option Int :=
  match parseJsDateFields s with
  | none => none
  | some f =>
    if fieldsValid f then
      let wall := msOfUTC f.year f.month f.day f.hour f.minute f.second f.frac
      match f.offsetMin with
      | some o => some (wall - o * 60000)
      | none => if f.hasTime then some (wall - envOffsetMin * 60000) else some wall
    else none

/-- Prefix match of `/^(\d{4})-(\d{2})-(\d{2})T(\d{2}):(\d{2}):(\d{2})/`:
six numeric components, no range validation, arbitrary trailing text. -/
def bareShapeMatch (s : List Char) : Option (Nat × Nat × Nat × Nat × Nat × Nat) :=
  match readDigits 4 s with
  | some (y, '-' :: s1) =>
    match readDigits 2 s1 with
    | some (mo, '-' :: s2) =>
      match readDigits 2 s2 with
      | some (d, 'T' :: s3) =>
        match readDigits 2 s3 with
        | some (h, ':' :: s4) =>
          match readDigits 2 s4 with
          | some (mi, ':' :: s5) =>
            (readDigits 2 s5).map (fun p => (y, mo, d, h, mi, p.1))
          | _ => none
        | _ => none
      | _ => none
    | _ => none
  | _ => none

/-- The claim's "offset-qualified timestamp" shape:
`YYYY-MM-DDTHH:MM:SS` immediately followed by `Z` or `±HH:MM`. -/
def offsetShape (s : List Char) : Bool :=
  match s with
  | ['Z'] => true
  | sign :: h1 :: h2 :: ':' :: m1 :: m2 :: [] =>
    (sign = '+' ∨ sign = '-') && h1.isDigit && h2.isDigit && m1.isDigit && m2.isDigit
  | _ => false

/-- The claim's bare `YYYY-MM-DDTHH:MM:SS` shape (full match). -/
def bareShapeExact (s : List Char) : Bool :=
  decide (s.length = 19) && (bareShapeMatch s).isSome

def offsetQualifiedShape (s : List Char) : Bool :=
  bareShapeExact (s.take 19) && offsetShape (s.drop 19)

/-- Embedding of `parsePacificDateTime` (webhook.js): strip a fractional
second run that precedes an offset marker, try `new Date` directly, and
fall back to the bare-pattern regex with a **fixed** `+7` hour shift
("Add 7 hours to convert from Pacific to UTC").  `none` models the
`Invalid date format` throw. -/
def parsePacificDateTime (envOffsetMin : Int) (s : List Char) : Option Int :=
  let clean := stripMillis s
  match jsDateParse envOffsetMin clean with
  | some d => some d
  | none =>
    match bareShapeMatch clean with
    | some (y, mo, d, h, mi, ss) =>
      some (jsDateUTC (y : Int) ((mo : Int) - 1) (d : Int) ((h : Int) + 7) (mi : Int) (ss : Int))
    | none => none

/-! ## Interval model and the Slot Finder -/

/-- Half-open time interval `[start, stop)` in epoch milliseconds. -/
structure Interval where
  start : Int
  stop : Int
  deriving DecidableEq, Repr

/-- Strict half-open overlap: `start < other.end && other.start < end`. -/
def Interval.overlaps (a b : Interval) : Bool :=
  decide (a.start < b.stop) && decide (b.start < a.stop)

/-- A candidate interval is free when it overlaps no busy interval. -/
def isFreeSlot (busy : List Interval) (c : Interval) : Bool :=
  busy.all (fun b => !c.overlaps b)

/-- Modelled from the spec: the Slot Finder of the `/find-available-slots`
operation (`findSlots`) is absent from the repository sources provided;
this follows §4.4 of the specification.  A cursor starts at `searchStart`;
each step forms the candidate `[cursor, cursor + slotDuration)`, accepts it
when it overlaps no busy interval, and in either case advances the cursor
by one slot duration, stopping once `count` slots are found or the cursor
passes `searchHorizon`.  `fuel` bounds the recursion; `findSlots` supplies
enough fuel to carry the cursor beyond any horizon. -/
def findSlotsAux (busy : List Interval) (slotDuration searchHorizon : Int) :
    Nat → Int → Nat → List Interval
  | 0, _, _ => []
  | _ + 1, _, 0 => []
  | fuel + 1, cursor, count + 1 =>
    if searchHorizon < cursor then []
    else
      let candidate : Interval := ⟨cursor, cursor + slotDuration⟩
      if isFreeSlot busy candidate then
        candidate :: findSlotsAux busy slotDuration searchHorizon fuel (cursor + slotDuration) count
      else
        findSlotsAux busy slotDuration searchHorizon fuel (cursor + slotDuration) (count + 1)

/-- Fuel sufficient to walk the cursor from `searchStart` past `searchHorizon`. -/
def slotsFuel (searchStart slotDuration searchHorizon : Int) : Nat :=
  (searchHorizon - searchStart).toNat / slotDuration.toNat + 1

/-- Modelled from the spec: §4.4's
`findSlots(busyIntervals, searchStart, slotDuration, count, searchHorizon)`. -/
def findSlots (busy : List Interval) (searchStart slotDuration : Int) (count : Nat)
    (searchHorizon : Int) : List Interval :=
  findSlotsAux busy slotDuration searchHorizon
    (slotsFuel searchStart slotDuration searchHorizon) searchStart count

/-- The cursor positions examined by the Slot Finder that are feasible:
at or before the horizon and free of every busy interval. -/
def feasibleStarts (busy : List Interval) (searchStart slotDuration searchHorizon : Int) :
    List Int :=
  (((List.range (slotsFuel searchStart slotDuration searchHorizon)).map
      (fun k : Nat => searchStart + (k : Int) * slotDuration)).filter
    (fun c => decide (c ≤ searchHorizon) &&
      isFreeSlot busy ⟨c, c + slotDuration⟩))

/-! ## The Event Resolver: `findEventByClientName` (webhook.js) -/

/-- Remote calendar event as consumed by the resolver (start instants in
epoch milliseconds, embedding `new Date(event.start.dateTime || event.start.date)`). -/
structure CalEvent where
  id : String
  summary : String
  description : String
  startMs : Int
  endMs : Int
  deriving DecidableEq, Repr

/-- The `appointmentDate` argument as a JS value: absent (`null`), an
`Invalid Date` object (truthy, all diffs `NaN`), or a valid instant. -/
inductive DateArg
  | null
  | invalid
  | valid (ms : Int)
  deriving DecidableEq, Repr

/-- `clientName.toLowerCase().trim()`. -/
def normalizeSearchName (clientName : List Char) : List Char :=
  trimStr (lowerStr clientName)

/-- One event's summary or description contains the normalized query. -/
def eventTextMatches (q : List Char) (e : CalEvent) : Bool :=
  includes (lowerStr e.summary.data) q || includes (lowerStr e.description.data) q

/-- Embedding of `findEventByClientName` (webhook.js), applied to the event
list returned by the Calendar Gateway for the ±30/60-day window.  `now` is
the current instant used by the no-`targetDate` branch.  JS
`Array.prototype.sort` is stable, embedded as `List.mergeSort`; an
`Invalid Date` hint makes every comparator result `NaN` (treated as 0), so
the sort leaves the order unchanged and the first match is returned. -/
def findEventByClientName (events : List CalEvent) (clientName : List Char)
    (appointmentDate : DateArg) (now : Int) : Option CalEvent :=
  let q := normalizeSearchName clientName
  let matchingEvents := events.filter (eventTextMatches q)
  if matchingEvents.length = 0 then none
  else if matchingEvents.length = 1 then matchingEvents.head?
  else
    match appointmentDate with
    | .valid t =>
      (matchingEvents.mergeSort
        (fun a b => decide ((a.startMs - t).natAbs ≤ (b.startMs - t).natAbs))).head?
    | .invalid => matchingEvents.head?
    | .null =>
      let upcomingEvents := matchingEvents.filter (fun e => decide (now ≤ e.startMs))
      if 0 < upcomingEvents.length then
        (upcomingEvents.mergeSort (fun a b => decide (a.startMs ≤ b.startMs))).head?
      else
        (matchingEvents.mergeSort (fun a b => decide (b.startMs ≤ a.startMs))).head?

/-- First element optimal for the comparator `le`, preferring earlier
elements on ties — the element a stable sort places at the head. -/
def firstBest (le : α → α → Bool) : List α → Option α
  | [] => none
  | a :: l =>
    match firstBest le l with
    | none => some a
    | some b => if le a b then some a else some b

/-- Demo calendar for concrete resolver runs: two events mention "jane". -/
def demoEventA : CalEvent := ⟨"ev1", "Haircut: Jane", "", 100000, 101000⟩

def demoEventB : CalEvent := ⟨"ev2", "Trim: JANE D", "", 50000, 51000⟩

def demoEventC : CalEvent := ⟨"ev3", "Cut: Bob", "", 70000, 71000⟩

def demoEvents : List CalEvent := [demoEventA, demoEventB, demoEventC]

/-! ## Conversation storage: `storeConversationMessage` (webhook.js) -/

structure ConvMessage where
  sender : String
  message : String
  timestamp : Int
  deriving DecidableEq, Repr

/-- Embedding of `storeConversationMessage`'s history update: push the new
message, then keep only the last 20 (`conversationHistory.slice(-20)`).
The returned list is what is written back to the client row (`update` for
an existing client, `insert` otherwise) and returned to the endpoint. -/
def storeConversationMessage (history : List ConvMessage) (sender message : String)
    (nowMs : Int) : List ConvMessage :=
  let conversationHistory := history ++ [⟨sender, message, nowMs⟩]
  conversationHistory.drop (conversationHistory.length - 20)

/-! ## Appointment Orchestrator: the `/client-appointment` endpoint (webhook.js)

External collaborator outcomes (Calendar Gateway, Record Store) are
supplied through a `World`; each run returns the HTTP response together
with the trace of Calendar Gateway actions and Record Store actions it
performed, in order. -/

inductive JsError
  | typeError
  | referenceError
  | malformedDate
  | gatewayError
  deriving DecidableEq, Repr

structure HttpResponse where
  status : Nat
  success : Bool
  action : Option String := none
  eventId : Option String := none
  errorMsg : Option String := none
  dbUpdateSuccess : Option Bool := none
  deriving DecidableEq, Repr

def errResp (status : Nat) (msg : String) : HttpResponse :=
  ⟨status, false, none, none, some msg, none⟩

inductive CalAction
  | get (id : String)
  | insert (startMs endMs : Int)
  | update (id : String) (startMs endMs : Int)
  | delete (id : String)
  deriving DecidableEq, Repr

def CalAction.isMutation : CalAction → Bool
  | .get _ => false
  | _ => true

inductive DbAction
  | createClient
  | createAppointment (eventId : String)
  | updateByEventId (eventId : String)
  | findByClientPhone
  | updateById (apptId : String)
  | deleteByEventId (eventId : String)
  deriving DecidableEq, Repr

inductive GetResult
  | ok (e : CalEvent)
  | notFound
  | err
  deriving DecidableEq, Repr

structure ClientRec where
  name : Option String
  preferredBarberId : Option String
  deriving DecidableEq, Repr

structure BarberRec where
  id : String
  hasRefreshToken : Bool
  deriving DecidableEq, Repr

structure Appt where
  id : String
  startMs : Int
  deriving DecidableEq, Repr

structure World where
  now : Int
  envOffsetMin : Int
  client : Option ClientRec
  clientCreateOk : Bool
  barber : Option BarberRec
  listedEvents : List CalEvent
  getEvent : GetResult
  insertResult : Option String
  updateOk : Bool
  deleteOk : Bool
  dbCreateOk : Bool
  dbUpdateByEventOk : Bool
  clientAppointments : List Appt
  dbUpdateByIdOk : Bool
  dbDeleteOk : Bool
  deriving DecidableEq, Repr

/-- JS truthiness of an optional string (`undefined`, `null` and `""` are falsy). -/
def jsTruthy : Option String → Bool
  | some s => decide (s ≠ "")
  | none => false

/-- JS `a || b` on optional strings. -/
def jsOrStr (a b : Option String) : Option String :=
  if jsTruthy a then a else b

/-- Normalize a falsy optional string to `none`. -/
def jsStr? (a : Option String) : Option String :=
  if jsTruthy a then a else none

/-- `res.status(...)`: constructing a response requires the `res` object to
be bound; with `res` `undefined` (see `handleCancelClientAppointment`'s
call site) the property access throws a `TypeError`. -/
def respond (resBound : Bool) (r : HttpResponse) : Except JsError HttpResponse :=
  if resBound then .ok r else .error .typeError

abbrev HandlerResult := Except JsError HttpResponse × List CalAction × List DbAction

structure CreateData where
  clientPhone : Option String
  clientName : Option String
  serviceType : String
  startDateTime : Option String
  duration : Nat
  notes : String
  barberId : Option String
  deriving DecidableEq, Repr

/-- Embedding of `handleCreateClientAppointment` (webhook.js): parse the
start, insert the remote event, then attempt the local Appointment write —
a local failure is caught and logged, leaving the success response intact. -/
def handleCreateClientAppointment (w : World) (d : CreateData) : HandlerResult :=
  match jsStr? d.startDateTime with
  | none => (.ok (errResp 400 "Start date-time is required for creating appointments"), [], [])
  | some sdt =>
    match parsePacificDateTime w.envOffsetMin sdt.data with
    | none => (.error .malformedDate, [], [])
    | some startMs =>
      let endMs := startMs + (d.duration : Int) * 60000
      match w.insertResult with
      | none => (.error .gatewayError, [.insert startMs endMs], [])
      | some newId =>
        let dbActs := if newId ≠ "" then [DbAction.createAppointment newId] else []
        (.ok ⟨200, true, some "create", some newId, none, none⟩, [.insert startMs endMs], dbActs)

/-- Embedding of `handleCancelClientAppointment` (webhook.js).  Its call
site passes six arguments to a seven-parameter function, so the trailing
`res` parameter is `undefined` inside the handler (`resBound = false` in
every actual run): every `res.status(...)` there throws a `TypeError`,
which the endpoint's catch turns into a 500. -/
def handleCancelClientAppointment (w : World) (resBound : Bool)
    (eventId clientName clientPhone : Option String) : HandlerResult :=
  let deleteStep : String → List CalAction → HandlerResult := fun eid tr =>
    if w.deleteOk then
      (respond resBound ⟨200, true, some "cancel", some eid, none, none⟩,
        tr ++ [.delete eid], [.deleteByEventId eid])
    else
      (.error .gatewayError, tr ++ [.delete eid], [])
  match jsStr? eventId with
  | none =>
    if !jsTruthy clientName && !jsTruthy clientPhone then
      (respond resBound (errResp 400
        "Either event ID or client information is required for cancelling events"), [], [])
    else
      let searchTerm := (jsOrStr clientName clientPhone).getD ""
      match findEventByClientName w.listedEvents searchTerm.data .null w.now with
      | none => (respond resBound (errResp 404 "No matching event found"), [], [])
      | some ev => deleteStep ev.id []
  | some eid =>
    match w.getEvent with
    | .notFound => (respond resBound (errResp 404 "Event not found with the provided ID"),
        [.get eid], [])
    | .err => (.error .gatewayError, [.get eid], [])
    | .ok _ => deleteStep eid [.get eid]

/-- Local-store reconciliation of a client reschedule: update by remote
event id, falling back to a search by client phone.  When an old start
string is present the fallback builds `new Date(oldStartDateTime - 86400000)`
on a string operand, so `toISOString` throws a `RangeError` that the
surrounding catch swallows; without it, the first found appointment is
updated. -/
def rescheduleDbStep (w : World) (eid : String) (clientPhone oldStartDateTime : Option String) :
    Bool × List DbAction :=
  if w.dbUpdateByEventOk then (true, [.updateByEventId eid])
  else if !jsTruthy clientPhone then (false, [.updateByEventId eid])
  else
    match jsStr? oldStartDateTime with
    | some _ => (false, [.updateByEventId eid])
    | none =>
      match w.clientAppointments with
      | [] => (false, [.updateByEventId eid, .findByClientPhone])
      | a :: _ =>
        if w.dbUpdateByIdOk then
          (true, [.updateByEventId eid, .findByClientPhone, .updateById a.id])
        else
          (false, [.updateByEventId eid, .findByClientPhone, .updateById a.id])

/-- Update the resolved remote event to the new times and reconcile the
local store — the tail of `handleRescheduleClientAppointment` after the
target event is known. -/
def rescheduleWithEvent (w : World) (nsdt : String) (duration : Nat) (eid : String)
    (tr : List CalAction) (clientPhone oldStartDateTime : Option String) : HandlerResult :=
  match parsePacificDateTime w.envOffsetMin nsdt.data with
  | none => (.error .malformedDate, tr, [])
  | some startMs =>
    let endMs := startMs + (duration : Int) * 60000
    if w.updateOk then
      let db := rescheduleDbStep w eid clientPhone oldStartDateTime
      (.ok ⟨200, true, some "reschedule", some eid, none, some db.1⟩,
        tr ++ [.update eid startMs endMs], db.2)
    else
      (.error .gatewayError, tr ++ [.update eid startMs endMs], [])

/-- Embedding of `handleRescheduleClientAppointment` (webhook.js).  The new
end time is `new start + duration` for the *caller-supplied* duration
(default 30); when no target event can be resolved — no match for the
client, or a 404 on an explicit event id — the handler falls back to
creating a brand-new appointment at the new start time. -/
def handleRescheduleClientAppointment (w : World)
    (eventId clientName clientPhone oldStartDateTime newStartDateTime : Option String)
    (duration : Nat) : HandlerResult :=
  match jsStr? newStartDateTime with
  | none => (.ok (errResp 400 "New start date-time is required for rescheduling"), [], [])
  | some nsdt =>
    let createFallback : List CalAction → HandlerResult := fun tr =>
      let r := handleCreateClientAppointment w
        ⟨clientPhone, clientName, "Appointment", some nsdt, duration,
          "Created from reschedule request", none⟩
      (r.1, tr ++ r.2.1, r.2.2)
    match jsStr? eventId with
    | none =>
      if !jsTruthy clientName && !jsTruthy clientPhone then
        (.ok (errResp 400
          "Either event ID or client information is required for rescheduling"), [], [])
      else
        let searchTerm := (jsOrStr clientName clientPhone).getD ""
        let target : DateArg :=
          match jsStr? oldStartDateTime with
          | none => .null
          | some os =>
            match jsDateParse w.envOffsetMin os.data with
            | some t => .valid t
            | none => .invalid
        match findEventByClientName w.listedEvents searchTerm.data target w.now with
        | none => createFallback []
        | some foundEvent =>
          rescheduleWithEvent w nsdt duration foundEvent.id [] clientPhone oldStartDateTime
    | some eid =>
      match w.getEvent with
      | .notFound => createFallback [.get eid]
      | .err => (.error .gatewayError, [.get eid], [])
      | .ok _ => rescheduleWithEvent w nsdt duration eid [.get eid] clientPhone oldStartDateTime

/-- Embedding of `handleRescheduleEvent` (webhook.js, `/create-event`
path, later revision): a 404 on an explicit event id yields a 404 response
with no mutation; on every path that does resolve an event, the function
computes the original event's duration but then reads `newStartDateTime`,
an identifier that is not in scope there (the function destructures
`startDateTime`), raising a `ReferenceError` before any update. -/
def handleRescheduleEvent (w : World) (eventId : Option String)
    (startDateTime clientName : Option String) (duration : Nat) : HandlerResult :=
  match jsStr? startDateTime with
  | none => (.ok (errResp 400 "New start date-time is required for rescheduling"), [], [])
  | some _ =>
    match jsStr? eventId with
    | none =>
      if !jsTruthy clientName then
        (.ok (errResp 400
          "Either event ID or client name is required for rescheduling"), [], [])
      else
        match findEventByClientName w.listedEvents ((clientName.getD "").data) .null w.now with
        | none => (.ok (errResp 404 "No matching event found"), [], [])
        | some _ => (.error .referenceError, [], [])
    | some eid =>
      match w.getEvent with
      | .notFound => (.ok (errResp 404 "Event not found with the provided ID"), [.get eid], [])
      | .err => (.error .gatewayError, [.get eid], [])
      | .ok _ => (.error .referenceError, [.get eid], [])

structure ClientAppointmentReq where
  clientPhone : Option String
  clientName : Option String
  serviceType : String := "Appointment"
  startDateTime : Option String
  newStartDateTime : Option String
  duration : Nat := 30
  notes : String := ""
  preferredBarberId : Option String
  isCancelling : Bool := false
  isRescheduling : Bool := false
  eventId : Option String
  deriving DecidableEq, Repr

def jsErrorMessage : JsError → String
  | .typeError => "Cannot read properties of undefined"
  | .referenceError => "newStartDateTime is not defined"
  | .malformedDate => "Invalid date format"
  | .gatewayError => "Calendar API error"

/-- Embedding of `router.post('/client-appointment')` (webhook.js, later
revision): validate the client phone, look up / opportunistically create
the client, resolve the barber, then dispatch on the `isCancelling` /
`isRescheduling` flags.  Any exception escaping a handler is caught and
surfaced as a 500.  The cancel dispatch passes six arguments to the
seven-parameter cancel handler, leaving its `res` parameter `undefined`
(`resBound = false`). -/
def clientAppointment (w : World) (req : ClientAppointmentReq) :
    HttpResponse × List CalAction × List DbAction :=
  let clientName : Option String :=
    match req.clientName with
    | none => some "New Client"
    | some s => some s
  if !jsTruthy req.clientPhone then
    (errResp 400 "Client phone number is required", [], [])
  else
    let createNew := w.client.isNone && !req.isCancelling && jsTruthy req.preferredBarberId
    let client : Option ClientRec :=
      if createNew then
        (if w.clientCreateOk then some ⟨clientName, req.preferredBarberId⟩ else none)
      else w.client
    let dbTr0 : List DbAction := if createNew then [.createClient] else []
    if !jsTruthy req.preferredBarberId && !jsTruthy (client.bind ClientRec.preferredBarberId) then
      (errResp 400 "No barber specified and client has no preferred barber", [], dbTr0)
    else
      match w.barber with
      | none => (errResp 404 "Barber not found or not authorized", [], dbTr0)
      | some barber =>
        if !barber.hasRefreshToken then
          (errResp 404 "Barber not found or not authorized", [], dbTr0)
        else
          let run : HandlerResult :=
            if req.isCancelling then
              handleCancelClientAppointment w false req.eventId
                (jsOrStr clientName (client.bind ClientRec.name)) req.clientPhone
            else if req.isRescheduling then
              handleRescheduleClientAppointment w req.eventId
                (jsOrStr clientName (client.bind ClientRec.name)) req.clientPhone
                req.startDateTime (jsOrStr req.newStartDateTime req.startDateTime) req.duration
            else
              handleCreateClientAppointment w
                ⟨req.clientPhone,
                  jsOrStr clientName
                    (match client with
                     | some c => c.name
                     | none => some "New Client"),
                  req.serviceType, req.startDateTime, req.duration, req.notes, some barber.id⟩
          match run with
          | (.ok resp, ca, da) => (resp, ca, dbTr0 ++ da)
          | (.error e, ca, da) => (errResp 500 (jsErrorMessage e), ca, dbTr0 ++ da)

/-! ## Demo fixtures for concrete orchestrator runs -/

/-- World for concrete orchestrator runs: client "Jane" with preferred
barber "b1" (authorized), a 45-minute event `ev1` on the calendar, remote
insertion yielding id "fresh", and a failing local Appointment write. -/
def demoWorld : World :=
  ⟨0, 0,
   some ⟨some "Jane", some "b1"⟩, true,
   some ⟨"b1", true⟩,
   [],
   .ok ⟨"ev1", "Haircut: Jane", "", msOfUTC 2025 3 10 9 0 0, msOfUTC 2025 3 10 9 45 0⟩,
   some "fresh",
   true, true,
   false, true, [], true, true⟩

/-- As `demoWorld`, but the Calendar Gateway reports 404 for the event id. -/
def demoWorldNotFound : World :=
  ⟨0, 0,
   some ⟨some "Jane", some "b1"⟩, true,
   some ⟨"b1", true⟩,
   [],
   .notFound,
   some "fresh",
   true, true,
   true, true, [], true, true⟩

def demoCreateReq : ClientAppointmentReq :=
  ⟨some "+15551234567", some "Jane", "Haircut", some "2025-03-10T09:00:00", none,
   30, "", some "b1", false, false, none⟩

def demoNoPhoneReq : ClientAppointmentReq :=
  ⟨none, some "Jane", "Haircut", some "2025-03-10T09:00:00", none,
   30, "", some "b1", false, false, none⟩

def demoCancelReq : ClientAppointmentReq :=
  ⟨some "+15551234567", some "Jane", "Haircut", none, none,
   30, "", some "b1", true, false, some "ev1"⟩

def demoResched404Req : ClientAppointmentReq :=
  ⟨some "+15551234567", some "Jane", "Haircut", none, some "2025-03-11T14:00:00",
   30, "", some "b1", false, true, some "gone"⟩

def demoReschedReq : ClientAppointmentReq :=
  ⟨some "+15551234567", some "Jane", "Haircut", none, some "2025-03-11T14:00:00",
   30, "", some "b1", false, true, some "ev1"⟩

/-! ## Head of a stable sort -/

theorem firstBest_eq_none_iff (le : α → α → Bool) (l : List α) :
    firstBest le l = none ↔ l = [] := by
  cases l with
  | nil => simp [firstBest]
  | cons a t =>
    simp only [firstBest]
    cases h : firstBest le t with
    | none => simp
    | some b => cases hab : le a b <;> simp [hab]

/-- The head of `mergeSort` is the stable best element: the earliest
element that compares `le` to everything. -/
theorem head_mergeSort_eq_firstBest {le : α → α → Bool}
    (htrans : ∀ a b c, le a b → le b c → le a c)
    (htotal : ∀ a b, le a b || le b a) :
    ∀ l : List α, (l.mergeSort le).head? = firstBest le l := by
  intro l
  induction l with
  | nil => simp [firstBest]
  | cons a t ih =>
    obtain ⟨l₁, l₂, h₁, h₂, h₃⟩ := List.mergeSort_cons htrans htotal a t
    cases l₁ with
    | nil =>
      simp only [List.nil_append] at h₁ h₂
      rw [h₁]
      cases l₂ with
      | nil =>
        have ht : firstBest le t = none := by rw [← ih, h₂]; rfl
        simp [firstBest, ht]
      | cons b l₂' =>
        have hs := List.sorted_mergeSort htrans htotal (a :: t)
        rw [h₁] at hs
        have hab : le a b := List.rel_of_pairwise_cons hs (List.mem_cons_self b l₂')
        have ht : firstBest le t = some b := by rw [← ih, h₂]; rfl
        simp [firstBest, ht, hab]
    | cons c l₁' =>
      have hac : le a c = false := by
        have hc := h₃ c (List.mem_cons_self c l₁')
        simpa using hc
      have ht : firstBest le t = some c := by rw [← ih, h₂]; rfl
      rw [h₁]
      simp [firstBest, ht, hac]

/-- Everything `firstBest` promises: membership, optimality, and being the
*first* optimum (every earlier element compares strictly worse). -/
theorem firstBest_spec {le : α → α → Bool}
    (htrans : ∀ a b c, le a b → le b c → le a c)
    (htotal : ∀ a b, le a b || le b a) :
    ∀ (l : List α) (a : α), firstBest le l = some a →
      a ∈ l ∧ (∀ b ∈ l, le a b) ∧
        ∃ l₁ l₂, l = l₁ ++ a :: l₂ ∧ ∀ x ∈ l₁, le x a = false := by
  have hrefl : ∀ c : α, le c c := fun c => by have := htotal c c; simpa using this
  intro l
  induction l with
  | nil => intro a h; simp [firstBest] at h
  | cons x t ih =>
    intro a h
    simp only [firstBest] at h
    cases hft : firstBest le t with
    | none =>
      rw [hft] at h
      simp at h
      have ht : t = [] := (firstBest_eq_none_iff le t).mp hft
      subst ht
      subst h
      refine ⟨by simp, ?_, [], [], by simp, by simp⟩
      intro b hb
      simp at hb
      subst hb
      exact hrefl _
    | some c =>
      rw [hft] at h
      obtain ⟨hcmem, hcle, m₁, m₂, hm, hpre⟩ := ih c hft
      by_cases hxc : le x c = true
      · have hxa : x = a := by simpa [hxc] using h
        subst hxa
        refine ⟨by simp, ?_, [], t, by simp, by simp⟩
        intro b hb
        rcases List.mem_cons.mp hb with hbx | hbt
        · subst hbx; exact hrefl _
        · exact htrans _ c b hxc (hcle b hbt)
      · have hca : c = a := by simpa [hxc] using h
        subst hca
        refine ⟨List.mem_cons_of_mem x hcmem, ?_, x :: m₁, m₂, by simp [hm], ?_⟩
        · intro b hb
          rcases List.mem_cons.mp hb with hbx | hbt
          · subst hbx
            have hor := htotal b c
            rcases Bool.or_eq_true_iff.mp hor with h' | h'
            · exact absurd h' (by simpa using hxc)
            · exact h'
          · exact hcle b hbt
        · intro y hy
          rcases List.mem_cons.mp hy with hyx | hym
          · subst hyx; simpa using hxc
          · exact hpre y hym

/-! ## C3: the Event Resolver -/

/-- C3 — `findEventByClientName` returns: `none` when no event's summary
or description contains the lower-cased trimmed query; the unique match
when exactly one event matches; among several matches with a valid target
date, the first (list order) match whose start is closest in absolute time
to the target; and among several matches with no target date, the soonest
match starting at or after `now`, or, when none is upcoming, the most
recent past match. -/
theorem findEventByClientName_spec (events : List CalEvent) (cn : List Char)
    (now : Int) (target : DateArg) :
    (events.filter (eventTextMatches (normalizeSearchName cn)) = [] →
      findEventByClientName events cn target now = none)
    ∧ (∀ e, events.filter (eventTextMatches (normalizeSearchName cn)) = [e] →
      findEventByClientName events cn target now = some e)
    ∧ (∀ t, target = .valid t →
        2 ≤ (events.filter (eventTextMatches (normalizeSearchName cn))).length →
        ∃ e l₁ l₂, findEventByClientName events cn target now = some e
          ∧ events.filter (eventTextMatches (normalizeSearchName cn)) = l₁ ++ e :: l₂
          ∧ (∀ x ∈ events.filter (eventTextMatches (normalizeSearchName cn)),
              (e.startMs - t).natAbs ≤ (x.startMs - t).natAbs)
          ∧ (∀ x ∈ l₁, (e.startMs - t).natAbs < (x.startMs - t).natAbs))
    ∧ (target = .null →
        2 ≤ (events.filter (eventTextMatches (normalizeSearchName cn))).length →
        ((events.filter (eventTextMatches (normalizeSearchName cn))).filter
            (fun e => decide (now ≤ e.startMs)) ≠ [] →
          ∃ e, findEventByClientName events cn target now = some e
            ∧ e ∈ (events.filter (eventTextMatches (normalizeSearchName cn))).filter
                (fun e => decide (now ≤ e.startMs))
            ∧ ∀ x ∈ (events.filter (eventTextMatches (normalizeSearchName cn))).filter
                (fun e => decide (now ≤ e.startMs)), e.startMs ≤ x.startMs)
        ∧ ((events.filter (eventTextMatches (normalizeSearchName cn))).filter
            (fun e => decide (now ≤ e.startMs)) = [] →
          ∃ e, findEventByClientName events cn target now = some e
            ∧ e ∈ events.filter (eventTextMatches (normalizeSearchName cn))
            ∧ ∀ x ∈ events.filter (eventTextMatches (normalizeSearchName cn)),
                x.startMs ≤ e.startMs)) := by
  refine ⟨?_, ?_, ?_, ?_⟩
  · intro h
    simp [findEventByClientName, h]
  · intro e h
    simp [findEventByClientName, h]
  · intro t ht hlen
    subst ht
    have h0 : ¬ (events.filter (eventTextMatches (normalizeSearchName cn))).length = 0 := by
      omega
    have h1 : ¬ (events.filter (eventTextMatches (normalizeSearchName cn))).length = 1 := by
      omega
    have htrans : ∀ a b c : CalEvent,
        (fun a b : CalEvent =>
          decide ((a.startMs - t).natAbs ≤ (b.startMs - t).natAbs)) a b →
        (fun a b : CalEvent =>
          decide ((a.startMs - t).natAbs ≤ (b.startMs - t).natAbs)) b c →
        (fun a b : CalEvent =>
          decide ((a.startMs - t).natAbs ≤ (b.startMs - t).natAbs)) a c := by
      intro a b c hab hbc
      simp at hab hbc ⊢
      omega
    have htotal : ∀ a b : CalEvent,
        ((fun a b : CalEvent =>
          decide ((a.startMs - t).natAbs ≤ (b.startMs - t).natAbs)) a b ||
         (fun a b : CalEvent =>
          decide ((a.startMs - t).natAbs ≤ (b.startMs - t).natAbs)) b a) := by
      intro a b
      simp [Bool.or_eq_true_iff]
      omega
    have hfind : findEventByClientName events cn (.valid t) now =
        ((events.filter (eventTextMatches (normalizeSearchName cn))).mergeSort
          (fun a b : CalEvent =>
            decide ((a.startMs - t).natAbs ≤ (b.startMs - t).natAbs))).head? := by
      simp only [findEventByClientName]
      rw [if_neg h0, if_neg h1]
    rw [head_mergeSort_eq_firstBest htrans htotal] at hfind
    cases hfb : firstBest
        (fun a b : CalEvent =>
          decide ((a.startMs - t).natAbs ≤ (b.startMs - t).natAbs))
        (events.filter (eventTextMatches (normalizeSearchName cn))) with
    | none =>
      have := (firstBest_eq_none_iff _ _).mp hfb
      rw [this] at hlen
      simp at hlen
    | some e =>
      obtain ⟨hmem, hle, l₁, l₂, hdecomp, hpre⟩ := firstBest_spec htrans htotal _ e hfb
      refine ⟨e, l₁, l₂, by rw [hfind, hfb], hdecomp, ?_, ?_⟩
      · intro x hx
        have := hle x hx
        simpa using this
      · intro x hx
        have := hpre x hx
        simp at this
        omega
  · intro ht hlen
    subst ht
    have h0 : ¬ (events.filter (eventTextMatches (normalizeSearchName cn))).length = 0 := by
      omega
    have h1 : ¬ (events.filter (eventTextMatches (normalizeSearchName cn))).length = 1 := by
      omega
    constructor
    · intro hup
      have hlt : 0 < ((events.filter (eventTextMatches (normalizeSearchName cn))).filter
          (fun e => decide (now ≤ e.startMs))).length := by
        cases hc : (events.filter (eventTextMatches (normalizeSearchName cn))).filter
            (fun e => decide (now ≤ e.startMs)) with
        | nil => exact absurd hc hup
        | cons a l => simp [hc]
      have htrans : ∀ a b c : CalEvent,
          (fun a b : CalEvent => decide (a.startMs ≤ b.startMs)) a b →
          (fun a b : CalEvent => decide (a.startMs ≤ b.startMs)) b c →
          (fun a b : CalEvent => decide (a.startMs ≤ b.startMs)) a c := by
        intro a b c hab hbc
        simp at hab hbc ⊢
        omega
      have htotal : ∀ a b : CalEvent,
          ((fun a b : CalEvent => decide (a.startMs ≤ b.startMs)) a b ||
           (fun a b : CalEvent => decide (a.startMs ≤ b.startMs)) b a) := by
        intro a b
        simp [Bool.or_eq_true_iff]
        omega
      have hfind : findEventByClientName events cn .null now =
          (((events.filter (eventTextMatches (normalizeSearchName cn))).filter
              (fun e => decide (now ≤ e.startMs))).mergeSort
            (fun a b : CalEvent => decide (a.startMs ≤ b.startMs))).head? := by
        simp only [findEventByClientName]
        rw [if_neg h0, if_neg h1]
        simp only [if_pos hlt]
      rw [head_mergeSort_eq_firstBest htrans htotal] at hfind
      cases hfb : firstBest (fun a b : CalEvent => decide (a.startMs ≤ b.startMs))
          ((events.filter (eventTextMatches (normalizeSearchName cn))).filter
            (fun e => decide (now ≤ e.startMs))) with
      | none =>
        exact absurd ((firstBest_eq_none_iff _ _).mp hfb) hup
      | some e =>
        obtain ⟨hmem, hle, _, _, _, _⟩ := firstBest_spec htrans htotal _ e hfb
        refine ⟨e, by rw [hfind, hfb], hmem, ?_⟩
        intro x hx
        have := hle x hx
        simpa using this
    · intro hup
      have htrans : ∀ a b c : CalEvent,
          (fun a b : CalEvent => decide (b.startMs ≤ a.startMs)) a b →
          (fun a b : CalEvent => decide (b.startMs ≤ a.startMs)) b c →
          (fun a b : CalEvent => decide (b.startMs ≤ a.startMs)) a c := by
        intro a b c hab hbc
        simp at hab hbc ⊢
        omega
      have htotal : ∀ a b : CalEvent,
          ((fun a b : CalEvent => decide (b.startMs ≤ a.startMs)) a b ||
           (fun a b : CalEvent => decide (b.startMs ≤ a.startMs)) b a) := by
        intro a b
        simp [Bool.or_eq_true_iff]
        omega
      have hnup : ¬ 0 < ((events.filter (eventTextMatches (normalizeSearchName cn))).filter
          (fun e => decide (now ≤ e.startMs))).length := by
        rw [hup]
        simp
      have hfind : findEventByClientName events cn .null now =
          ((events.filter (eventTextMatches (normalizeSearchName cn))).mergeSort
            (fun a b : CalEvent => decide (b.startMs ≤ a.startMs))).head? := by
        simp only [findEventByClientName]
        rw [if_neg h0, if_neg h1]
        simp only [if_neg hnup]
      rw [head_mergeSort_eq_firstBest htrans htotal] at hfind
      cases hfb : firstBest (fun a b : CalEvent => decide (b.startMs ≤ a.startMs))
          (events.filter (eventTextMatches (normalizeSearchName cn))) with
      | none =>
        have := (firstBest_eq_none_iff _ _).mp hfb
        rw [this] at hlen
        simp at hlen
      | some e =>
        obtain ⟨hmem, hle, _, _, _, _⟩ := firstBest_spec htrans htotal _ e hfb
        refine ⟨e, by rw [hfind, hfb], hmem, ?_⟩
        intro x hx
        have := hle x hx
        simpa using this

/-! ## C1, C9: the Time Parser -/

/-- C1 — refuted on the code: for the naive January string
`2025-01-15T10:00:00`, whose US-Pacific (PST, UTC-8) interpretation is
`2025-01-15T18:00:00Z`, the parser instead returns the host-timezone
interpretation (`10:00Z` on a UTC host, and a different instant on a
Pacific host, so the result is not even host-independent), while its
explicit "Pacific" fallback branch (`Date.UTC(..., hour + 7, ...)`) would
produce `17:00Z` — a fixed 7-hour shift, not the date-dependent
standard/daylight offset. -/
theorem parsePacificDateTime_january_offset_bug :
    parsePacificDateTime 0 "2025-01-15T10:00:00".data = some (msOfUTC 2025 1 15 10 0 0)
    ∧ parsePacificDateTime (-480) "2025-01-15T10:00:00".data = some (msOfUTC 2025 1 15 18 0 0)
    ∧ jsDateUTC 2025 (1 - 1) 15 (10 + 7) 0 0 = msOfUTC 2025 1 15 17 0 0
    ∧ msOfUTC 2025 1 15 10 0 0 ≠ msOfUTC 2025 1 15 18 0 0
    ∧ msOfUTC 2025 1 15 17 0 0 ≠ msOfUTC 2025 1 15 18 0 0 := by
  refine ⟨by decide, by decide, by decide, by decide, by decide⟩

/-- C9 — refuted on the code: the date-only string `2025-01-15` matches
neither the offset-qualified nor the bare `YYYY-MM-DDTHH:MM:SS` shape
(before or after fractional stripping, which leaves it unchanged), yet
`parsePacificDateTime` accepts it rather than throwing, because
`new Date` parses date-only ISO strings as UTC midnight. -/
theorem parsePacificDateTime_accepts_date_only :
    stripMillis "2025-01-15".data = "2025-01-15".data
    ∧ offsetQualifiedShape "2025-01-15".data = false
    ∧ bareShapeExact "2025-01-15".data = false
    ∧ parsePacificDateTime 0 "2025-01-15".data = some (msOfUTC 2025 1 15 0 0 0) := by
  refine ⟨by decide, by decide, by decide, by decide⟩

/-- C9 (amended) — `parsePacificDateTime` throws its malformed-timestamp
error exactly when, after stripping an offset-adjacent fractional-second
run, the string is not accepted by the host's ISO date-time parsing
(`new Date`, which also accepts e.g. date-only strings) *and* does not
begin with the bare `YYYY-MM-DDTHH:MM:SS` pattern. -/
theorem parsePacificDateTime_reject_iff (env : Int) (s : List Char) :
    parsePacificDateTime env s = none ↔
      jsDateParse env (stripMillis s) = none ∧ bareShapeMatch (stripMillis s) = none := by
  unfold parsePacificDateTime
  cases hj : jsDateParse env (stripMillis s) with
  | some d => simp [hj]
  | none =>
    cases hb : bareShapeMatch (stripMillis s) with
    | some c => simp [hj, hb]
    | none => simp [hj, hb]

/-- Instance of `parsePacificDateTime_reject_iff` at a concrete rejected
string. -/
theorem parsePacificDateTime_reject_iff_witness :
    parsePacificDateTime 0 "garbage".data = none ↔
      jsDateParse 0 (stripMillis "garbage".data) = none
      ∧ bareShapeMatch (stripMillis "garbage".data) = none :=
  parsePacificDateTime_reject_iff 0 "garbage".data

/-! ## C10: conversation history bound -/

/-- C10 — after every store, the history holds at most 20 messages — in
fact exactly `min (previous + 1) 20` — is a suffix of the previous history
with the new message appended (so it consists of the most recent messages
in order), ends with the new message, and storing into a 20-message
history drops the oldest entry. -/
theorem storeConversationMessage_spec (history : List ConvMessage)
    (sender message : String) (nowMs : Int) :
    (storeConversationMessage history sender message nowMs).length ≤ 20
    ∧ (storeConversationMessage history sender message nowMs).length
        = min (history.length + 1) 20
    ∧ storeConversationMessage history sender message nowMs
        <:+ history ++ [⟨sender, message, nowMs⟩]
    ∧ (storeConversationMessage history sender message nowMs).getLast?
        = some ⟨sender, message, nowMs⟩
    ∧ (history.length = 20 →
        storeConversationMessage history sender message nowMs
          = history.tail ++ [⟨sender, message, nowMs⟩]) := by
  have hk : (history ++ [(⟨sender, message, nowMs⟩ : ConvMessage)]).length - 20
      ≤ history.length := by
    simp
  refine ⟨?_, ?_, ?_, ?_, ?_⟩
  · simp [storeConversationMessage]
    omega
  · simp [storeConversationMessage]
    omega
  · exact List.drop_suffix _ _
  · unfold storeConversationMessage
    rw [List.drop_append_of_le_length (by simpa using hk)]
    simp
  · intro h20
    unfold storeConversationMessage
    rw [List.drop_append_of_le_length (by simpa using hk)]
    simp [h20]

/-- Instance of `storeConversationMessage_spec` at a 20-message history:
the 21st message pushes out the oldest. -/
theorem storeConversationMessage_spec_witness :
    (List.replicate 20 (⟨"client", "old", 0⟩ : ConvMessage)).length = 20
    ∧ storeConversationMessage (List.replicate 20 ⟨"client", "old", 0⟩) "client" "new" 99
        = (List.replicate 20 (⟨"client", "old", 0⟩ : ConvMessage)).tail
            ++ [⟨"client", "new", 99⟩] :=
  ⟨by decide,
    (storeConversationMessage_spec (List.replicate 20 ⟨"client", "old", 0⟩)
      "client" "new" 99).2.2.2.2 (by decide)⟩

/-- Instance of `findEventByClientName_spec`: two events match "jane", and
with target date 60000 the resolver picks the closer one. -/
theorem findEventByClientName_spec_witness :
    2 ≤ (demoEvents.filter (eventTextMatches (normalizeSearchName "  Jane ".data))).length
    ∧ ∃ e l₁ l₂,
        findEventByClientName demoEvents "  Jane ".data (.valid 60000) 0 = some e
        ∧ demoEvents.filter (eventTextMatches (normalizeSearchName "  Jane ".data))
            = l₁ ++ e :: l₂
        ∧ (∀ x ∈ demoEvents.filter (eventTextMatches (normalizeSearchName "  Jane ".data)),
            (e.startMs - 60000).natAbs ≤ (x.startMs - 60000).natAbs)
        ∧ (∀ x ∈ l₁, (e.startMs - 60000).natAbs < (x.startMs - 60000).natAbs) :=
  ⟨by decide,
    (findEventByClientName_spec demoEvents "  Jane ".data 0 (.valid 60000)).2.2.1
      60000 rfl (by decide)⟩

/-! ## C8: the Slot Finder -/

theorem findSlotsAux_elem {busy : List Interval} {dur horizon : Int} (hdur : 0 < dur) :
    ∀ (fuel : Nat) (c : Int) (count : Nat) (i : Interval),
      i ∈ findSlotsAux busy dur horizon fuel c count →
      c ≤ i.start ∧ i.stop = i.start + dur ∧ isFreeSlot busy i = true ∧ i.start ≤ horizon := by
  intro fuel
  induction fuel with
  | zero => intro c count i h; simp [findSlotsAux] at h
  | succ fuel ih =>
    intro c count i h
    match count with
    | 0 => simp [findSlotsAux] at h
    | count + 1 =>
      simp only [findSlotsAux] at h
      by_cases hc : horizon < c
      · simp [hc] at h
      · rw [if_neg hc] at h
        by_cases hf : isFreeSlot busy ⟨c, c + dur⟩ = true
        · rw [if_pos hf] at h
          rcases List.mem_cons.mp h with rfl | hmem
          · refine ⟨le_refl _, rfl, hf, ?_⟩
            show c ≤ horizon
            omega
          · have h' := ih (c + dur) count i hmem
            exact ⟨by omega, h'.2.1, h'.2.2.1, h'.2.2.2⟩
        · rw [if_neg hf] at h
          have h' := ih (c + dur) (count + 1) i h
          exact ⟨by omega, h'.2.1, h'.2.2.1, h'.2.2.2⟩

theorem findSlotsAux_pairwise {busy : List Interval} {dur horizon : Int} (hdur : 0 < dur) :
    ∀ (fuel : Nat) (c : Int) (count : Nat),
      (findSlotsAux busy dur horizon fuel c count).Pairwise
        (fun a b => a.start < b.start) := by
  intro fuel
  induction fuel with
  | zero => intro c count; simp [findSlotsAux]
  | succ fuel ih =>
    intro c count
    match count with
    | 0 => simp [findSlotsAux]
    | count + 1 =>
      simp only [findSlotsAux]
      by_cases hc : horizon < c
      · simp [hc]
      · rw [if_neg hc]
        by_cases hf : isFreeSlot busy ⟨c, c + dur⟩ = true
        · rw [if_pos hf]
          refine List.Pairwise.cons ?_ (ih (c + dur) count)
          intro b hb
          have hb' := (findSlotsAux_elem hdur fuel (c + dur) count b hb).1
          show c < b.start
          omega
        · rw [if_neg hf]
          exact ih (c + dur) (count + 1)

theorem findSlotsAux_length {busy : List Interval} {dur horizon : Int} (hdur : 0 < dur) :
    ∀ (fuel : Nat) (c : Int) (count : Nat),
      (findSlotsAux busy dur horizon fuel c count).length
        = min count (((List.range fuel).map (fun k : Nat => c + (k : Int) * dur)).filter
            (fun x => decide (x ≤ horizon) && isFreeSlot busy ⟨x, x + dur⟩)).length := by
  intro fuel
  induction fuel with
  | zero => intro c count; simp [findSlotsAux]
  | succ fuel ih =>
    intro c count
    have hreindex : ((List.range (fuel + 1)).map (fun k : Nat => c + (k : Int) * dur))
        = c :: ((List.range fuel).map (fun k : Nat => (c + dur) + (k : Int) * dur)) := by
      rw [List.range_succ_eq_map, List.map_cons, List.map_map]
      congr 1
      · push_cast
        ring
      · apply List.map_congr_left
        intro a _
        show c + ((a + 1 : Nat) : Int) * dur = c + dur + (a : Int) * dur
        push_cast
        ring
    match count with
    | 0 => simp [findSlotsAux]
    | count + 1 =>
      simp only [findSlotsAux]
      by_cases hc : horizon < c
      · rw [if_pos hc]
        have hnil : (((List.range (fuel + 1)).map (fun k : Nat => c + (k : Int) * dur)).filter
            (fun x => decide (x ≤ horizon) && isFreeSlot busy ⟨x, x + dur⟩)) = [] := by
          rw [List.filter_eq_nil_iff]
          intro x hx
          rcases List.mem_map.mp hx with ⟨k, _, rfl⟩
          have hknn : (0 : Int) ≤ (k : Int) * dur :=
            mul_nonneg (Int.natCast_nonneg k) (le_of_lt hdur)
          simp
          intro hle
          omega
        rw [hnil]
        simp
      · rw [if_neg hc]
        rw [hreindex, List.filter_cons]
        by_cases hf : isFreeSlot busy ⟨c, c + dur⟩ = true
        · rw [if_pos hf]
          have hpc : (decide (c ≤ horizon) && isFreeSlot busy ⟨c, c + dur⟩) = true := by
            simp [hf]
            omega
          rw [if_pos hpc]
          simp only [List.length_cons]
          rw [ih (c + dur) count]
          omega
        · rw [if_neg hf]
          have hpc : ¬ ((decide (c ≤ horizon) && isFreeSlot busy ⟨c, c + dur⟩) = true) := by
            simp [hf]
          rw [if_neg hpc]
          exact ih (c + dur) (count + 1)

/-- C8 — spec-modelled Slot Finder: every returned slot is free of every
busy interval under the half-open overlap predicate, lies within the
search window and has the requested duration; the slots are returned in
strictly increasing order; and the number of returned slots is exactly
`min count (number of feasible cursor positions within the horizon)`
(`feasibleStarts` enumerates them, and the final conjunct shows it catches
*every* feasible cursor position, so the finder never returns fewer than
`min count feasible`). -/
theorem findSlots_spec (busy : List Interval) (searchStart slotDuration : Int)
    (count : Nat) (searchHorizon : Int) (hdur : 0 < slotDuration) :
    (∀ i ∈ findSlots busy searchStart slotDuration count searchHorizon,
        (∀ b ∈ busy, i.overlaps b = false) ∧ searchStart ≤ i.start
          ∧ i.stop = i.start + slotDuration ∧ i.start ≤ searchHorizon)
    ∧ (findSlots busy searchStart slotDuration count searchHorizon).Pairwise
        (fun a b => a.start < b.start)
    ∧ (findSlots busy searchStart slotDuration count searchHorizon).length
        = min count (feasibleStarts busy searchStart slotDuration searchHorizon).length
    ∧ (∀ k : Nat, searchStart + (k : Int) * slotDuration ≤ searchHorizon →
        isFreeSlot busy ⟨searchStart + (k : Int) * slotDuration,
          searchStart + (k : Int) * slotDuration + slotDuration⟩ = true →
        searchStart + (k : Int) * slotDuration
          ∈ feasibleStarts busy searchStart slotDuration searchHorizon) := by
  refine ⟨?_, ?_, ?_, ?_⟩
  · intro i hi
    have h := findSlotsAux_elem hdur _ _ _ i hi
    refine ⟨?_, h.1, h.2.1, h.2.2.2⟩
    intro b hb
    have := List.all_eq_true.mp h.2.2.1 b hb
    simpa using this
  · exact findSlotsAux_pairwise hdur _ _ _
  · exact findSlotsAux_length hdur _ _ _
  · intro k hk hfree
    refine List.mem_filter.mpr ⟨?_, by simp [hfree, hk]⟩
    refine List.mem_map.mpr ⟨k, List.mem_range.mpr ?_, rfl⟩
    unfold slotsFuel
    have hknn : (0 : Int) ≤ (k : Int) * slotDuration :=
      mul_nonneg (Int.natCast_nonneg k) (le_of_lt hdur)
    have hdnat : ((slotDuration.toNat : Int)) = slotDuration :=
      Int.toNat_of_nonneg (le_of_lt hdur)
    have htnn : (((searchHorizon - searchStart).toNat : Int))
        = searchHorizon - searchStart := by
      apply Int.toNat_of_nonneg
      omega
    have hmulle : k * slotDuration.toNat ≤ (searchHorizon - searchStart).toNat := by
      apply Int.ofNat_le.mp
      push_cast [hdnat, htnn]
      omega
    have hdiv : k ≤ (searchHorizon - searchStart).toNat / slotDuration.toNat := by
      apply (Nat.le_div_iff_mul_le ?_).mpr hmulle
      omega
    omega

/-- Instance of `findSlots_spec`: one busy interval `[30, 60)` starting
from 0 with 30-minute slots and horizon 200 yields three slots skipping
the busy block. -/
theorem findSlots_spec_witness :
    (0 : Int) < 30
    ∧ findSlots [⟨30, 60⟩] 0 30 3 200 = [⟨0, 30⟩, ⟨60, 90⟩, ⟨90, 120⟩]
    ∧ (findSlots [⟨30, 60⟩] 0 30 3 200).length
        = min 3 (feasibleStarts [⟨30, 60⟩] 0 30 200).length :=
  ⟨by decide, by decide, (findSlots_spec [⟨30, 60⟩] 0 30 3 200 (by decide)).2.2.1⟩

/-! ## C4, C5, C6, C7, C2: the `/client-appointment` orchestrator -/

theorem jsStr?_some {a : Option String} {s : String} (h : jsStr? a = some s) :
    a = some s ∧ s ≠ "" := by
  unfold jsStr? at h
  cases ht : jsTruthy a with
  | false => rw [ht] at h; simp at h
  | true =>
    rw [ht] at h
    simp at h
    subst h
    refine ⟨rfl, ?_⟩
    simpa [jsTruthy] using ht

/-- C4 — a Create request whose remote insertion succeeds returns a 200
success response carrying the new remote event id, and this response is
the same whether or not the subsequent local Appointment write succeeds
(the write is attempted; its failure is only logged). -/
theorem clientAppointment_create_db_failure_still_succeeds
    (w : World) (req : ClientAppointmentReq)
    (hcan : req.isCancelling = false) (hres : req.isRescheduling = false)
    (hphone : jsTruthy req.clientPhone = true)
    (hpref : jsTruthy req.preferredBarberId = true)
    (b : BarberRec) (hb : w.barber = some b) (htok : b.hasRefreshToken = true)
    (sdt : String) (hsdt : jsStr? req.startDateTime = some sdt)
    (startMs : Int) (hparse : parsePacificDateTime w.envOffsetMin sdt.data = some startMs)
    (newId : String) (hins : w.insertResult = some newId) (hid : newId ≠ "")
    (hdbfail : w.dbCreateOk = false) :
    (clientAppointment w req).1 = ⟨200, true, some "create", some newId, none, none⟩
    ∧ DbAction.createAppointment newId ∈ (clientAppointment w req).2.2 := by
  simp only [clientAppointment, handleCreateClientAppointment, hphone, hcan, hres, hpref,
    hb, htok, hsdt, hparse, hins]
  simp [hid]

/-- Instance of `clientAppointment_create_db_failure_still_succeeds`:
insertion succeeds with id "fresh", the local write fails
(`demoWorld.dbCreateOk = false`), and the response is still a 200 success
carrying "fresh". -/
theorem clientAppointment_create_db_failure_witness :
    demoWorld.dbCreateOk = false
    ∧ (clientAppointment demoWorld demoCreateReq).1
        = ⟨200, true, some "create", some "fresh", none, none⟩
    ∧ DbAction.createAppointment "fresh" ∈ (clientAppointment demoWorld demoCreateReq).2.2 :=
  ⟨rfl,
    clientAppointment_create_db_failure_still_succeeds demoWorld demoCreateReq
      rfl rfl (by decide) (by decide) ⟨"b1", true⟩ rfl rfl
      "2025-03-10T09:00:00" (by decide)
      (msOfUTC 2025 3 10 9 0 0) (by decide)
      "fresh" rfl (by decide) rfl⟩

/-- C7 — `/client-appointment` validation and barber-lookup failures are
answered before any Calendar Gateway call: a missing client phone yields
an immediate 400 with empty traces; an unresolvable barber (no explicit
id, and no stored preference on the — possibly absent — client record)
yields a 400 with no Calendar Gateway action; a failed barber lookup or a
barber without a credential yields a 404 with no Calendar Gateway action. -/
theorem clientAppointment_validation_before_mutation
    (w : World) (req : ClientAppointmentReq) :
    (jsTruthy req.clientPhone = false →
      clientAppointment w req = (errResp 400 "Client phone number is required", [], []))
    ∧ (jsTruthy req.clientPhone = true →
       jsTruthy req.preferredBarberId = false →
       jsTruthy (w.client.bind ClientRec.preferredBarberId) = false →
        (clientAppointment w req).1
          = errResp 400 "No barber specified and client has no preferred barber"
        ∧ (clientAppointment w req).2.1 = [])
    ∧ (jsTruthy req.clientPhone = true →
       (jsTruthy req.preferredBarberId = true
          ∨ jsTruthy (w.client.bind ClientRec.preferredBarberId) = true) →
       (w.barber = none ∨ ∃ b, w.barber = some b ∧ b.hasRefreshToken = false) →
        (clientAppointment w req).1 = errResp 404 "Barber not found or not authorized"
        ∧ (clientAppointment w req).2.1 = []) := by
  refine ⟨?_, ?_, ?_⟩
  · intro hphone
    simp [clientAppointment, hphone]
  · intro hphone hpref hcpref
    have hcn : (w.client.isNone && !req.isCancelling && jsTruthy req.preferredBarberId)
        = false := by
      rw [hpref]
      simp
    simp [clientAppointment, hphone, hpref, hcn, hcpref]
  · intro hphone hresolve hbarber
    rcases hresolve with hp | hc
    · rcases hbarber with hnone | ⟨b, hb, htok⟩
      · simp [clientAppointment, hphone, hp, hnone]
      · simp [clientAppointment, hphone, hp, hb, htok]
    · by_cases hp : jsTruthy req.preferredBarberId = true
      · rcases hbarber with hnone | ⟨b, hb, htok⟩
        · simp [clientAppointment, hphone, hp, hnone]
        · simp [clientAppointment, hphone, hp, hb, htok]
      · have hp' : jsTruthy req.preferredBarberId = false := by simpa using hp
        have hcn : (w.client.isNone && !req.isCancelling && jsTruthy req.preferredBarberId)
            = false := by
          rw [hp']
          simp
        rcases hbarber with hnone | ⟨b, hb, htok⟩
        · simp [clientAppointment, hphone, hp', hcn, hc, hnone]
        · simp [clientAppointment, hphone, hp', hcn, hc, hb, htok]

/-- Instance of `clientAppointment_validation_before_mutation`: a request
with no client phone is answered 400 with no Calendar Gateway action. -/
theorem clientAppointment_validation_witness :
    jsTruthy demoNoPhoneReq.clientPhone = false
    ∧ clientAppointment demoWorld demoNoPhoneReq
        = (errResp 400 "Client phone number is required", [], []) :=
  ⟨rfl, (clientAppointment_validation_before_mutation demoWorld demoNoPhoneReq).1 rfl⟩

/-- C5 — refuted on the code (code bug): cancelling via
`/client-appointment` with a valid event id deletes the remote event and
the matching local Appointment row, but the caller is answered with a 500
failure, not success: the dispatch passes six arguments to the
seven-parameter cancel handler, so `res` is `undefined` inside it and the
success response line itself throws a `TypeError` that the endpoint's
catch converts into a 500. -/
theorem clientAppointment_cancel_reports_failure :
    clientAppointment demoWorld demoCancelReq
      = (errResp 500 "Cannot read properties of undefined",
         [.get "ev1", .delete "ev1"], [.deleteByEventId "ev1"])
    ∧ CalAction.delete "ev1" ∈ (clientAppointment demoWorld demoCancelReq).2.1
    ∧ DbAction.deleteByEventId "ev1" ∈ (clientAppointment demoWorld demoCancelReq).2.2
    ∧ (clientAppointment demoWorld demoCancelReq).1.success = false
    ∧ (clientAppointment demoWorld demoCancelReq).1.status = 500 := by
  refine ⟨by decide, by decide, by decide, by decide, by decide⟩

/-- C6 — refuted on the code: a `/client-appointment` reschedule naming an
explicit event id for which the gateway reports 404 does *not* return an
EventNotFound error; it inserts a brand-new event at the new start time
and reports create success. -/
theorem clientAppointment_reschedule_404_creates_instead :
    clientAppointment demoWorldNotFound demoResched404Req
      = (⟨200, true, some "create", some "fresh", none, none⟩,
         [.get "gone",
          .insert (msOfUTC 2025 3 11 14 0 0) (msOfUTC 2025 3 11 14 30 0)],
         [.createAppointment "fresh"])
    ∧ (clientAppointment demoWorldNotFound demoResched404Req).1.status ≠ 404
    ∧ CalAction.insert (msOfUTC 2025 3 11 14 0 0) (msOfUTC 2025 3 11 14 30 0)
        ∈ (clientAppointment demoWorldNotFound demoResched404Req).2.1 := by
  refine ⟨by decide, by decide, by decide⟩

/-- C6 (amended) — on a 404 for an explicit event id, the
`/client-appointment` reschedule path falls back to *creating* a new
appointment at the new start time, reporting create success after a get
and an insert (never an update or delete); only the `/create-event`
reschedule path (`handleRescheduleEvent`) returns the 404-equivalent
EventNotFound response with no calendar mutation. -/
theorem reschedule_not_found_behaviour
    (w : World) (req : ClientAppointmentReq)
    (hcan : req.isCancelling = false) (hres : req.isRescheduling = true)
    (hphone : jsTruthy req.clientPhone = true)
    (hpref : jsTruthy req.preferredBarberId = true)
    (b : BarberRec) (hb : w.barber = some b) (htok : b.hasRefreshToken = true)
    (eid : String) (heid : jsStr? req.eventId = some eid)
    (hget : w.getEvent = .notFound)
    (nsdt : String)
    (hnsdt : jsStr? (jsOrStr req.newStartDateTime req.startDateTime) = some nsdt)
    (startMs : Int) (hparse : parsePacificDateTime w.envOffsetMin nsdt.data = some startMs)
    (newId : String) (hins : w.insertResult = some newId) (hid : newId ≠ "") :
    (clientAppointment w req).1 = ⟨200, true, some "create", some newId, none, none⟩
    ∧ CalAction.get eid ∈ (clientAppointment w req).2.1
    ∧ CalAction.insert startMs (startMs + (req.duration : Int) * 60000)
        ∈ (clientAppointment w req).2.1
    ∧ (∀ id s e, CalAction.update id s e ∉ (clientAppointment w req).2.1)
    ∧ (∀ id, CalAction.delete id ∉ (clientAppointment w req).2.1)
    ∧ (∀ (w' : World) (eventId startDateTime clientName : Option String) (dur : Nat)
        (sdt eid' : String), jsStr? startDateTime = some sdt →
        jsStr? eventId = some eid' → w'.getEvent = .notFound →
        handleRescheduleEvent w' eventId startDateTime clientName dur
          = (.ok (errResp 404 "Event not found with the provided ID"), [.get eid'], [])) := by
  have hn : nsdt ≠ "" := (jsStr?_some hnsdt).2
  have hsn : jsStr? (some nsdt) = some nsdt := by
    simp [jsStr?, jsTruthy, hn]
  have hmain :
      (clientAppointment w req).1 = ⟨200, true, some "create", some newId, none, none⟩
      ∧ (clientAppointment w req).2.1
          = [.get eid, .insert startMs (startMs + (req.duration : Int) * 60000)] := by
    simp only [clientAppointment, handleRescheduleClientAppointment,
      handleCreateClientAppointment, hphone, hcan, hres, hpref, hb, htok, heid, hget,
      hnsdt, hsn, hparse, hins]
    simp [hid]
  refine ⟨hmain.1, ?_, ?_, ?_, ?_, ?_⟩
  · rw [hmain.2]
    simp
  · rw [hmain.2]
    simp
  · intro id s e
    rw [hmain.2]
    simp
  · intro id
    rw [hmain.2]
    simp
  · intro w' eventId startDateTime clientName dur sdt eid' hsdt' heid' hget'
    simp only [handleRescheduleEvent, hsdt', heid', hget']

/-- Instance of `reschedule_not_found_behaviour` at the demo world. -/
theorem reschedule_not_found_behaviour_witness :
    (clientAppointment demoWorldNotFound demoResched404Req).1
      = ⟨200, true, some "create", some "fresh", none, none⟩
    ∧ CalAction.insert (msOfUTC 2025 3 11 14 0 0)
        (msOfUTC 2025 3 11 14 0 0 + ((demoResched404Req.duration : Nat) : Int) * 60000)
        ∈ (clientAppointment demoWorldNotFound demoResched404Req).2.1 :=
  have h := reschedule_not_found_behaviour demoWorldNotFound demoResched404Req
    rfl rfl (by decide) (by decide) ⟨"b1", true⟩ rfl rfl
    "gone" (by decide) rfl
    "2025-03-11T14:00:00" (by decide)
    (msOfUTC 2025 3 11 14 0 0) (by decide)
    "fresh" rfl (by decide)
  ⟨h.1, h.2.2.1⟩

/-- C2 — refuted on the code: rescheduling the 45-minute event
`[09:00, 09:45)` (`ev1` in `demoWorld`) to `14:00` with no explicit
duration updates the remote event to `[14:00, 14:30)` — new start plus the
silent 30-minute default — not `[14:00, 14:45)`. -/
theorem clientAppointment_reschedule_30min_default :
    clientAppointment demoWorld demoReschedReq
      = (⟨200, true, some "reschedule", some "ev1", none, some true⟩,
         [.get "ev1",
          .update "ev1" (msOfUTC 2025 3 11 14 0 0) (msOfUTC 2025 3 11 14 30 0)],
         [.updateByEventId "ev1"])
    ∧ msOfUTC 2025 3 10 9 45 0 - msOfUTC 2025 3 10 9 0 0 = 2700000
    ∧ msOfUTC 2025 3 11 14 30 0 - msOfUTC 2025 3 11 14 0 0 = 1800000
    ∧ (1800000 : Int) ≠ 2700000 := by
  refine ⟨by decide, by decide, by decide, by decide⟩

/-- C2 (amended) — for every `/client-appointment` reschedule that
resolves its target by explicit event id, the updated remote event runs
from the parsed new start to new start plus the *caller-supplied* duration
(30 minutes when the request omits it); the original event's duration —
whatever event the gateway returns — never enters the computation. -/
theorem clientAppointment_reschedule_uses_supplied_duration
    (w : World) (req : ClientAppointmentReq)
    (hcan : req.isCancelling = false) (hres : req.isRescheduling = true)
    (hphone : jsTruthy req.clientPhone = true)
    (hpref : jsTruthy req.preferredBarberId = true)
    (b : BarberRec) (hb : w.barber = some b) (htok : b.hasRefreshToken = true)
    (eid : String) (heid : jsStr? req.eventId = some eid)
    (ev : CalEvent) (hget : w.getEvent = .ok ev)
    (nsdt : String)
    (hnsdt : jsStr? (jsOrStr req.newStartDateTime req.startDateTime) = some nsdt)
    (startMs : Int) (hparse : parsePacificDateTime w.envOffsetMin nsdt.data = some startMs)
    (hupd : w.updateOk = true) :
    (clientAppointment w req).1.status = 200
    ∧ (clientAppointment w req).1.success = true
    ∧ (clientAppointment w req).1.action = some "reschedule"
    ∧ (clientAppointment w req).2.1
        = [.get eid, .update eid startMs (startMs + (req.duration : Int) * 60000)] := by
  simp only [clientAppointment, handleRescheduleClientAppointment, rescheduleWithEvent,
    hphone, hcan, hres, hpref, hb, htok, heid, hget, hnsdt, hparse, hupd]
  simp

/-- Instance of `clientAppointment_reschedule_uses_supplied_duration`: the
45-minute `ev1` moved to 14:00 with the default duration is updated to a
30-minute event. -/
theorem clientAppointment_reschedule_duration_witness :
    (clientAppointment demoWorld demoReschedReq).1.status = 200
    ∧ (clientAppointment demoWorld demoReschedReq).2.1
        = [.get "ev1", .update "ev1" (msOfUTC 2025 3 11 14 0 0)
            (msOfUTC 2025 3 11 14 0 0 + ((demoReschedReq.duration : Nat) : Int) * 60000)] :=
  have h := clientAppointment_reschedule_uses_supplied_duration demoWorld demoReschedReq
    rfl rfl (by decide) (by decide) ⟨"b1", true⟩ rfl rfl
    "ev1" (by decide)
    ⟨"ev1", "Haircut: Jane", "", msOfUTC 2025 3 10 9 0 0, msOfUTC 2025 3 10 9 45 0⟩ rfl
    "2025-03-11T14:00:00" (by decide)
    (msOfUTC 2025 3 11 14 0 0) (by decide) rfl
  ⟨h.1, h.2.2.2⟩

end Barber
